import Mathlib

/-!
# Verification of the microgrid-simulator core

Shallow embedding, over exact rational arithmetic, of

* the ALTRO SIMULATORE power-flow dispatcher (`MG.py`) with the base battery
  book-keeping model (`ESS/ESS.py`, used verbatim by `ESS_linear`),
* the empirical ECM battery variant's charge/discharge book-keeping
  (`ESS/ESS_empirical.py`), with the transcendental equivalent-circuit
  simulation (`compute_ECM`, which uses `math.exp` on floats) abstracted as a
  configuration-supplied function,
* the pymgrid UNIPI chemistry battery transition model
  (`src/pymgrid/modules/battery/transition_models/unipi_transition_model.py`),
  with the table-driven `(Voc, R0)` interpolation (built from external `.mat`
  data) abstracted as a configuration-supplied function,
* a model of the SOH degradation curve, which is exercised by the repository's
  tests but whose implementation is not part of the sources at hand.

Python's `round(x, 2)` (banker's rounding) is embedded with Mathlib's `round`
on `ℚ` scaled by 100; the two agree except at exact half-cent ties, and every
statement below is insensitive to the tie-breaking rule (it only relies on
monotonicity of rounding and on rounding fixing two-decimal values).
-/

namespace MGSim

/-- Two-decimal rounding, embedding Python's `round(x, 2)`. -/
def round2 (x : ℚ) : ℚ := (round (100 * x) : ℤ) / 100

/-- Embeds `numpy.clip`: lower bound applied first, then upper bound. -/
def clip (x lo hi : ℚ) : ℚ := min (max x lo) hi

/-! ## ESS base model (`ALTRO SIMULATORE/ESS/ESS.py`)

`ESS_linear` (`ESS/ESS_linear.py`) delegates every method to this base class
unchanged, so this embedding covers both. Only the fields that the methods
under verification read are kept; the state that the Python object mutates
(`self.SoE`) is passed explicitly. -/

structure ESSConfig where
  Q : ℚ
  p_S_max : ℚ
  a : ℚ
  b : ℤ
  B : ℚ
  eta : ℚ
  SoE_0 : ℚ
  SoE_min : ℚ
  SoE_max : ℚ

namespace ESS

/-- Embeds `ESS.update_SoE_ch` (lines 52-60): returns the new `SoE` and `excess`.
The source assigns `self.SoE = self.SoE_max` *before* computing
`excess = (self.SoE_max - self.SoE) * self.Q`; the embedding mirrors that
statement order (the subtraction reads the already-clamped value). -/
def update_SoE_ch (c : ESSConfig) (SoE p_GL_S _p_GL delta_t : ℚ) : ℚ × ℚ :=
  let p := p_GL_S * c.eta
  let en := |p * delta_t| / c.Q
  let SoE1 := SoE + en
  if SoE1 > c.SoE_max then
    (c.SoE_max, (c.SoE_max - c.SoE_max) * c.Q)
  else
    (SoE1, 0)

/-- Embeds `ESS.update_SoE_dch` (lines 69-77): returns the new `SoE` and `lack`.
As in charging, `lack` is computed from the already-clamped `SoE`. -/
def update_SoE_dch (c : ESSConfig) (SoE p_GL_S delta_t : ℚ) : ℚ × ℚ :=
  let p := p_GL_S / c.eta
  let en := |p * delta_t| / c.Q
  let SoE1 := SoE - en
  if SoE1 < c.SoE_min then
    (c.SoE_min, (c.SoE_min - c.SoE_min) * c.Q)
  else
    (SoE1, 0)

/-- Embeds `ESS.get_wear_cost` (lines 88-92). -/
def get_wear_cost (c : ESSConfig) (SoE SoE_prev p_S_k delta_t : ℚ) : ℚ :=
  let W_prec := (c.B / (2 * c.Q * c.eta)) * ((c.b : ℚ) * (1 - SoE_prev) ^ (c.b - 1)) / c.a
  let W_k := (c.B / (2 * c.Q * c.eta)) * ((c.b : ℚ) * (1 - SoE) ^ (c.b - 1)) / c.a
  ((delta_t / 2) * (W_prec + W_k)) * |p_S_k|

end ESS

/-! ## Power-flow dispatcher (`ALTRO SIMULATORE/MG.py`)

One iteration of `MG.simulate` (lines 72-204): the timestep's dispatch case
analysis, the ESS update call, and the two per-step checks. The economics
(`get_cost`) and logging are irrelevant to the verified claims and omitted.
The dispatch returns `none` exactly where the source raises
`ValueError('Case not covered!')`. -/

structure MGConfig extends ESSConfig where
  delta_t : ℚ

/-- The realized flows and battery state of one dispatcher timestep. -/
structure DispatchResult where
  SoE : ℚ
  p_GL : ℚ
  p_GL_S : ℚ
  p_GL_N : ℚ
  ess_losses : ℚ
  deriving Repr, DecidableEq

namespace MG

/-- The dispatch case analysis of `MG.simulate` for one timestep
(lines 82-190), with the mutated `self.ESS.SoE` passed in and returned. -/
def dispatch (c : MGConfig) (SoE p_G p_L alpha : ℚ) : Option DispatchResult :=
  let p_GL := round2 (p_G - p_L)
  let Q_res := round2 (c.Q * (c.SoE_max - SoE))
  let e_S_res := round2 (c.Q * (SoE - c.SoE_min))
  if p_GL = 0 then
    some ⟨SoE, p_GL, 0, 0, 0⟩
  else if p_GL > 0 then
    if p_GL * c.delta_t ≤ Q_res ∧ p_GL ≤ c.p_S_max then
      let p_GL_S := round2 (alpha * p_GL) * c.eta
      let ess_losses := round2 (alpha * p_GL) * (1 - c.eta)
      let p_GL_N := p_GL - p_GL_S - ess_losses
      let r := ESS.update_SoE_ch c.toESSConfig SoE p_GL_S p_GL c.delta_t
      if r.2 > 0 then
        some ⟨r.1, p_GL, p_GL_S - r.2 / c.delta_t, p_GL - (p_GL_S - r.2 / c.delta_t), ess_losses⟩
      else
        some ⟨r.1, p_GL, p_GL_S, p_GL_N, ess_losses⟩
    else if p_GL * c.delta_t > Q_res ∧ p_GL ≤ c.p_S_max then
      let p_GL_S := round2 (alpha * Q_res / c.delta_t) * c.eta
      let p_GL_N := p_GL - p_GL_S
      let r := ESS.update_SoE_ch c.toESSConfig SoE p_GL_S p_GL c.delta_t
      if r.2 > 0 then
        some ⟨r.1, p_GL, p_GL_S - r.2 / c.delta_t, p_GL - (p_GL_S - r.2 / c.delta_t), 0⟩
      else
        some ⟨r.1, p_GL, p_GL_S, p_GL_N, 0⟩
    else if (p_GL * c.delta_t > Q_res ∧ p_GL > c.p_S_max)
        ∨ (p_GL * c.delta_t ≤ Q_res ∧ p_GL > c.p_S_max) then
      let p_GL_S := if alpha * c.p_S_max * c.delta_t * c.eta ≤ Q_res then alpha * c.p_S_max else 0
      let p_GL_N := p_GL - p_GL_S
      let r := ESS.update_SoE_ch c.toESSConfig SoE p_GL_S p_GL c.delta_t
      if r.2 > 0 then
        some ⟨r.1, p_GL, p_GL_S - r.2 / c.delta_t, p_GL - (p_GL_S - r.2 / c.delta_t), 0⟩
      else
        some ⟨r.1, p_GL, p_GL_S, p_GL_N, 0⟩
    else
      none
  else
    if alpha * |p_GL * c.delta_t| / c.eta ≤ e_S_res ∧ |p_GL| ≤ c.p_S_max then
      let p_GL_S := -round2 (alpha * |p_GL|) / c.eta
      let ess_losses := round2 (alpha * p_GL) * (1 - c.eta)
      let p_GL_N := p_GL - p_GL_S - ess_losses
      let r := ESS.update_SoE_dch c.toESSConfig SoE p_GL_S c.delta_t
      if r.2 ≠ 0 then
        some ⟨r.1, p_GL, p_GL_S + r.2 / c.delta_t, p_GL - (p_GL_S + r.2 / c.delta_t), ess_losses⟩
      else
        some ⟨r.1, p_GL, p_GL_S, p_GL_N, ess_losses⟩
    else if alpha * |p_GL * c.delta_t| / c.eta > e_S_res ∧ |p_GL| ≤ c.p_S_max then
      let p_GL_S := -round2 (alpha * e_S_res / c.delta_t) / c.eta
      let p_GL_N := p_GL - p_GL_S
      let r := ESS.update_SoE_dch c.toESSConfig SoE p_GL_S c.delta_t
      if r.2 ≠ 0 then
        some ⟨r.1, p_GL, p_GL_S + r.2 / c.delta_t, p_GL - (p_GL_S + r.2 / c.delta_t), 0⟩
      else
        some ⟨r.1, p_GL, p_GL_S, p_GL_N, 0⟩
    else if alpha * |p_GL * c.delta_t| / c.eta > e_S_res ∧ |p_GL| > c.p_S_max then
      let p_GL_S := if alpha * c.p_S_max * c.delta_t / c.eta ≤ e_S_res then alpha * c.p_S_max else 0
      let p_GL_N := p_GL - p_GL_S
      let r := ESS.update_SoE_dch c.toESSConfig SoE p_GL_S c.delta_t
      if r.2 ≠ 0 then
        some ⟨r.1, p_GL, p_GL_S + r.2 / c.delta_t, p_GL - (p_GL_S + r.2 / c.delta_t), 0⟩
      else
        some ⟨r.1, p_GL, p_GL_S, p_GL_N, 0⟩
    else if alpha * |p_GL * c.delta_t| / c.eta ≤ e_S_res ∧ |p_GL| > c.p_S_max then
      let p_GL_S := -round2 (alpha * c.p_S_max) / c.eta
      let p_GL_N := p_GL - p_GL_S
      let r := ESS.update_SoE_dch c.toESSConfig SoE p_GL_S c.delta_t
      if r.2 ≠ 0 then
        some ⟨r.1, p_GL, p_GL_S + r.2 / c.delta_t, p_GL - (p_GL_S + r.2 / c.delta_t), 0⟩
      else
        some ⟨r.1, p_GL, p_GL_S, p_GL_N, 0⟩
    else
      none

/-- Embeds `MG.check_SoE` (lines 230-232): `true` means the check raises. -/
def check_SoE (c : MGConfig) (SoE : ℚ) : Bool :=
  round2 SoE > c.SoE_max ∨ round2 SoE < c.SoE_min

/-- Embeds `MG.check_e_bal` (lines 237-240): `true` means the check raises. -/
def check_e_bal (p_GL p_GL_N p_GL_S ess_losses : ℚ) : Bool :=
  round2 (p_GL - p_GL_N - p_GL_S - ess_losses) ≠ 0

inductive MGErr where
  | caseNotCovered
  | soeOutOfBounds
  | balanceNonZero
  deriving Repr, DecidableEq

/-- One full iteration of the `MG.simulate` loop: dispatch then the two
per-step checks, each of which raises `ValueError` in the source. -/
def simulateStep (c : MGConfig) (SoE p_G p_L alpha : ℚ) :
    Except MGErr DispatchResult :=
  match dispatch c SoE p_G p_L alpha with
  | none => .error .caseNotCovered
  | some d =>
    if check_SoE c d.SoE then .error .soeOutOfBounds
    else if check_e_bal d.p_GL d.p_GL_N d.p_GL_S d.ess_losses then .error .balanceNonZero
    else .ok d

/-- Embeds `MG.simulate` over a dataset of `(p_G, p_L)` pairs with a fixed EMS
decision `alpha`, returning the final `SoE`. -/
def simulate (c : MGConfig) (alpha : ℚ) : ℚ → List (ℚ × ℚ) → Except MGErr ℚ
  | SoE, [] => .ok SoE
  | SoE, (p_G, p_L) :: rest =>
    match simulateStep c SoE p_G p_L alpha with
    | .error e => .error e
    | .ok d => simulate c alpha d.SoE rest

end MG

/-! ## UNIPI chemistry battery transition model
(`src/pymgrid/modules/battery/transition_models/unipi_transition_model.py`)

The `(Voc, R0)` lookup (`_interp_voc_r0`, a clipped bilinear interpolation of
tables loaded from an external `.mat` file) is abstracted as the
configuration field `interp`; every claim below is independent of the
concrete table. `wear_b` is kept as an integer exponent so that
`pow(1 - soc, b - 1)` stays in exact arithmetic. Debug CSV logging and the
commented-out energy-conversion block are omitted. -/

namespace Unipi

structure Config where
  reference_cell_capacity_ah : ℚ
  nominal_cell_voltage : ℚ
  ns_batt : ℚ
  np_batt : ℚ
  c_n : ℚ
  temperature_c : ℚ
  eta_inverter : ℚ
  delta_t_hours : ℚ
  wear_a : Option ℚ
  wear_b : Option ℤ
  wear_B : Option ℚ
  interp : ℚ → ℚ → ℚ × ℚ

/-- Embeds `self.nominal_energy_kwh` as set in `__init__`. -/
def Config.nominal_energy_kwh (c : Config) : ℚ :=
  c.c_n * c.nominal_cell_voltage * c.ns_batt * c.np_batt / 1000

/-- One entry of `self._transition_history`. -/
structure Record where
  time_hours : ℚ
  current_a : ℚ
  internal_energy_change : ℚ
  soc : ℚ
  soe : ℚ
  voltage_v : ℚ
  power_kw : ℚ
  deriving Repr, DecidableEq

/-- The fields of the model object mutated by `transition`. -/
structure State where
  soc : ℚ
  soe : ℚ
  v_prev : ℚ
  dyn_eta : Option ℚ
  last_dynamic_efficiency : Option ℚ
  last_wear_cost : ℚ
  history : List Record
  deriving Repr, DecidableEq

/-- The `state_dict` argument: `soc` plus the optional keys read with
`.get`. (`current_charge` is read into a local the source never uses.) -/
structure StateDict where
  soc : ℚ
  temperature_c : Option ℚ
  current_charge : Option ℚ
  deriving Repr, DecidableEq

/-- Embeds the read `state_dict.get('temperature_c', self.temperature_c)`. -/
def effTemp (c : Config) (sd : StateDict) : ℚ := sd.temperature_c.getD c.temperature_c

/-- Embeds `delta_t = max(self.delta_t_hours, 1e-9)`. -/
def deltaT (c : Config) : ℚ := max c.delta_t_hours (1 / 1000000000)

/-- The `soc` in effect during a call: on step 0 it is re-initialized from
`state_dict`, otherwise the persisted `self.soc` is used. -/
def socEff (st : State) (sd : StateDict) (current_step : ℕ) : ℚ :=
  if current_step = 0 then sd.soc else st.soc

/-- The `soe` in effect during a call (step 0 initializes it from the same
`state_dict['soc']` entry). -/
def soeEff (st : State) (sd : StateDict) (current_step : ℕ) : ℚ :=
  if current_step = 0 then sd.soc else st.soe

/-- The `(Voc, R0)` pair looked up at the in-effect `soc` and temperature. -/
def vocR0 (c : Config) (st : State) (sd : StateDict) (current_step : ℕ) : ℚ × ℚ :=
  c.interp (socEff st sd current_step) (effTemp c sd)

/-- The `v_prev` in effect during a call: on step 0 it is set to the freshly
interpolated `Voc`, otherwise the persisted `self.v_prev` is used. -/
def vprevEff (c : Config) (st : State) (sd : StateDict) (current_step : ℕ) : ℚ :=
  if current_step = 0 then (vocR0 c st sd current_step).1 else st.v_prev

/-- Embeds `power_kw = -external_energy_change / delta_t`. -/
def powerKw (c : Config) (external_energy_change : ℚ) : ℚ :=
  -external_energy_change / deltaT c

/-- Embeds `current_a = 1000.0 * power_kw / max(self.v_prev, 1e-9)`. -/
def currentA (c : Config) (st : State) (sd : StateDict) (current_step : ℕ)
    (external_energy_change : ℚ) : ℚ :=
  1000 * powerKw c external_energy_change / max (vprevEff c st sd current_step) (1 / 1000000000)

/-- Embeds `v_batt = max(voc - R0 * current_a, 1e-6)`. -/
def vBatt (c : Config) (st : State) (sd : StateDict) (current_step : ℕ)
    (external_energy_change : ℚ) : ℚ :=
  max ((vocR0 c st sd current_step).1
    - (vocR0 c st sd current_step).2 * currentA c st sd current_step external_energy_change)
    (1 / 1000000)

/-- Embeds `battery_pack_nominal_charge = self.c_n * self.np_batt`. -/
def batteryPackNominalCharge (c : Config) : ℚ := c.c_n * c.np_batt

/-- Embeds `min_soc = (min_capacity * 1000) / (battery_pack_nominal_charge * (V_n * Ns))`. -/
def minSoc (c : Config) (min_capacity : ℚ) : ℚ :=
  min_capacity * 1000 / (batteryPackNominalCharge c * (c.nominal_cell_voltage * c.ns_batt))

/-- Embeds `max_soc = (max_capacity * 1000) / (battery_pack_nominal_charge * (V_n * Ns))`. -/
def maxSoc (c : Config) (max_capacity : ℚ) : ℚ :=
  max_capacity * 1000 / (batteryPackNominalCharge c * (c.nominal_cell_voltage * c.ns_batt))

/-- Embeds `_dynamic_efficiency` (lines 186-195); `np.isclose(current_a, 0.0)` with
the default tolerances is `|current_a| ≤ 1e-8`. -/
def dynamicEfficiency (c : Config) (current_a voc R0 v_batt : ℚ) : ℚ :=
  if |current_a| ≤ 1 / 100000000 then
    1 * c.eta_inverter
  else if current_a > 0 then
    max 0 (min 1 (c.eta_inverter * (1 - (R0 * current_a ^ 2) / (current_a * max voc (1 / 1000000000)))))
  else
    max 0 (min 1 (c.eta_inverter * (1 - (R0 * current_a ^ 2) / (-current_a * max v_batt (1 / 1000000000)))))

/-- The `eta` picked by `_compute_wear_cost`:
`self.dyn_eta if self.dyn_eta is not None else (self.last_dynamic_efficiency
or self.eta_inverter)` (Python `or` treats `0.0` as falsy). -/
def wearEta (c : Config) (dyn_eta last_dynamic_efficiency : Option ℚ) : ℚ :=
  match dyn_eta with
  | some e => e
  | none =>
    match last_dynamic_efficiency with
    | some l => if l = 0 then c.eta_inverter else l
    | none => c.eta_inverter

/-- The instantaneous wear rate
`(B / (2*q_n*eta)) * (b * (1-x)^(b-1)) / a` of `_compute_wear_cost`. -/
def wearRate (q_n eta a : ℚ) (b : ℤ) (B x : ℚ) : ℚ :=
  (B / (2 * q_n * eta)) * ((b : ℚ) * (1 - x) ^ (b - 1)) / a

/-- Embeds `_compute_wear_cost` (lines 197-209). -/
def computeWearCost (c : Config) (dyn_eta last_dynamic_efficiency : Option ℚ)
    (soc_previous soc_current power_kw delta_t_hours : ℚ) : ℚ :=
  match c.wear_a, c.wear_b, c.wear_B with
  | some a, some b, some B =>
    let q_n := c.nominal_energy_kwh
    let eta := wearEta c dyn_eta last_dynamic_efficiency
    let w_prev := wearRate q_n eta a b B soc_previous
    let w_curr := wearRate q_n eta a b B soc_current
    ((delta_t_hours / 2) * (w_prev + w_curr)) * |power_kw|
  | _, _, _ => 0

/-- Embeds `get_wear_cost` (lines 411-412): note that it forwards `soc_previous`
as both endpoints of `_compute_wear_cost`. -/
def get_wear_cost (c : Config) (st : State) (soc_previous power_kw delta_t_hours : ℚ) : ℚ :=
  computeWearCost c st.dyn_eta st.last_dynamic_efficiency
    soc_previous soc_previous power_kw delta_t_hours

/-- Embeds `transition_without_update` (lines 360-409): reads the model state but
never writes it, returning only the energy change. (`v_batt` and
`battery_pack_nominal_charge` are computed by the source and never used.) -/
def transition_without_update (c : Config) (st : State)
    (external_energy_change min_capacity max_capacity max_charge max_discharge
      _efficiency _battery_cost_cycle : ℚ)
    (current_step : ℕ) (sd : StateDict) : ℚ :=
  let delta_t := deltaT c
  let soe := soeEff st sd current_step
  let soe_new := clip
    (soe - (currentA c st sd current_step external_energy_change
      * (vocR0 c st sd current_step).1 * delta_t / 1000) / c.nominal_energy_kwh)
    (min_capacity / max_capacity) 1
  clip ((soe_new - soe) * c.nominal_energy_kwh) (-max_discharge) max_charge

/-- Embeds `transition` (lines 211-357). With `state_update=True` it runs the
electrochemical update and persists the new state; with `state_update=False`
it delegates to `transition_without_update` with the energy request negated
and negates the result, leaving the state untouched. -/
def transition (c : Config) (st : State)
    (external_energy_change min_capacity max_capacity max_charge max_discharge
      efficiency battery_cost_cycle : ℚ)
    (current_step : ℕ) (sd : StateDict) (state_update : Bool) : ℚ × State :=
  if state_update then
    let delta_t := deltaT c
    let soc0 := socEff st sd current_step
    let soe0 := soeEff st sd current_step
    let voc := (vocR0 c st sd current_step).1
    let i := currentA c st sd current_step external_energy_change
    let v_batt := vBatt c st sd current_step external_energy_change
    let soc_unbounded := soc0 - (i * delta_t) / (c.c_n * c.np_batt)
    let soc_new := clip soc_unbounded (minSoc c min_capacity) (maxSoc c max_capacity)
    let dyn_eta := if current_step = 0 then efficiency
      else max (1 / 1000000000)
        (dynamicEfficiency c i voc (vocR0 c st sd current_step).2 v_batt)
    let soe_new := clip (soe0 - (i * voc * delta_t / 1000) / c.nominal_energy_kwh)
      (min_capacity / max_capacity) 1
    let internal_energy_change := clip ((soe_new - soe0) * c.nominal_energy_kwh)
      (-max_discharge) max_charge
    let wear := computeWearCost c (some dyn_eta) (some dyn_eta) soc0 soc_new
      (powerKw c external_energy_change) delta_t
    (internal_energy_change,
      { soc := soc_new
        soe := soe_new
        v_prev := v_batt
        dyn_eta := some dyn_eta
        last_dynamic_efficiency := some dyn_eta
        last_wear_cost := wear
        history := st.history ++
          [⟨(current_step : ℚ) * c.delta_t_hours, i, internal_energy_change,
            soc_new, soe_new, v_batt, -(powerKw c external_energy_change)⟩] })
  else
    let internal_energy_change := transition_without_update c st
      (-1 * external_energy_change) min_capacity max_capacity max_charge
      max_discharge efficiency battery_cost_cycle current_step sd
    (-1 * internal_energy_change, st)

end Unipi

/-! ## Claim C8: empirical ECM discharge guard
(`ALTRO SIMULATORE/ESS/ESS_empirical.py`)

`compute_ECM` evaluates a 31-parameter equivalent-circuit response using
`math.exp` on floats; it is abstracted here as the configuration field
`ecm`, since the claim is only about the clamp decision taken on its
output. -/

structure EmpConfig extends ESSConfig where
  V_n : ℚ
  Q_n : ℚ
  ecm : ℚ → ℚ → ℚ → ℚ → ℚ → ℚ

namespace ESSEmpirical

/-- Embeds `ESS_empirical.get_req_quant` (lines 89-97): returns `(i, x, Qr)`. -/
def get_req_quant (c : EmpConfig) (SoE p_GL_S : ℚ) : ℚ × ℚ × ℚ :=
  let i := p_GL_S / c.V_n
  let Qr := SoE * c.Q_n
  let rate := if Qr = 0 then 1000 else |i / Qr|
  (i, rate, Qr)

/-- Embeds `ESS_empirical.update_SoE_dch` (lines 73-82). The guard compares the
newly computed `SoE` against `SoE_max` (not `SoE_min`), and `lack` is
computed after `self.SoE` has been set to `SoE_min`. -/
def update_SoE_dch (c : EmpConfig) (SoE p_GL_S delta_t : ℚ) : ℚ × ℚ :=
  let q := get_req_quant c SoE p_GL_S
  let DoD_coulomb := ((|q.1| / c.Q_n) * delta_t) / c.Q_n
  let y := 1 - DoD_coulomb
  let SoE1 := c.ecm q.1 q.2.1 y q.2.2 delta_t
  if SoE1 < c.SoE_max then
    (c.SoE_min, (c.SoE_min - c.SoE_min) * c.Q)
  else
    (SoE1, 0)

end ESSEmpirical

/-! ## Claim C6: the SOH degradation curve -/

/-- Modelled from the spec: the repository sources at hand contain only the
tests and demos of the SOH model (`_update_soh_from_ah` of the transition
models), not its implementation. Per spec §4.3, the curve through the
configured `(Ah_threshold, SOH_value)` points starts at `(0, 1)`, decreases
linearly to the first measured point, is piecewise-linear between
consecutive points, and holds the last value beyond the final threshold.
`sohInterp p q` is the linear interpolant through points `p` and `q`. -/
def sohInterp (p q : ℚ × ℚ) (ah : ℚ) : ℚ :=
  p.2 + (q.2 - p.2) * (ah - p.1) / (q.1 - p.1)

/-- Modelled from the spec: the curve value at throughput `ah`, starting
from the previous point `p` and walking the remaining measured points. -/
def sohCurveFrom (p : ℚ × ℚ) : List (ℚ × ℚ) → ℚ → ℚ
  | [], _ => p.2
  | q :: rest, ah => if ah ≤ q.1 then sohInterp p q ah else sohCurveFrom q rest ah

/-- Modelled from the spec: the SOH curve, anchored at `soh(0) = 1`. -/
def sohCurve (pts : List (ℚ × ℚ)) (ah : ℚ) : ℚ := sohCurveFrom (0, 1) pts ah

/-- Modelled from the spec: `_update_soh_from_ah` enforces monotonicity even
under out-of-order or revisited throughputs by returning
`min(curve_value, last_soh)`. -/
def updateSoh (pts : List (ℚ × ℚ)) (last_soh ah : ℚ) : ℚ :=
  min (sohCurve pts ah) last_soh

/-- Well-formedness of the measured SOH points after a previous point `p`:
thresholds strictly increase and measured values do not increase. -/
def sohChain : ℚ × ℚ → List (ℚ × ℚ) → Prop
  | _, [] => True
  | p, q :: rest => p.1 < q.1 ∧ q.2 ≤ p.2 ∧ sohChain q rest

theorem round2_monotone {x y : ℚ} (h : x ≤ y) : round2 x ≤ round2 y := by
  unfold round2
  have hr : round (100 * x) ≤ round (100 * y) := by
    rw [round_eq, round_eq]
    exact Int.floor_le_floor (by nlinarith)
  have h100 : (0:ℚ) ≤ 100 := by norm_num
  apply div_le_div_of_nonneg_right ?_ h100
  exact_mod_cast hr

theorem round2_fix (m : ℤ) : round2 ((m : ℚ) / 100) = (m : ℚ) / 100 := by
  unfold round2
  have : (100 : ℚ) * ((m : ℚ) / 100) = (m : ℚ) := by ring
  rw [this, round_intCast]

theorem clip_mem {x lo hi : ℚ} (h : lo ≤ hi) :
    lo ≤ clip x lo hi ∧ clip x lo hi ≤ hi := by
  unfold clip
  constructor
  · exact le_min (le_max_right x lo) h
  · exact min_le_right _ _

/-! ## Facts about the ESS update calls -/

namespace ESS

theorem update_SoE_ch_snd (c : ESSConfig) (SoE p_GL_S p_GL delta_t : ℚ) :
    (update_SoE_ch c SoE p_GL_S p_GL delta_t).2 = 0 := by
  simp only [update_SoE_ch]
  split
  · ring_nf
  · rfl

theorem update_SoE_dch_snd (c : ESSConfig) (SoE p_GL_S delta_t : ℚ) :
    (update_SoE_dch c SoE p_GL_S delta_t).2 = 0 := by
  simp only [update_SoE_dch]
  split
  · ring_nf
  · rfl

theorem update_SoE_ch_fst_mem (c : ESSConfig) (SoE p_GL_S p_GL delta_t : ℚ)
    (hQ : 0 ≤ c.Q) (hmm : c.SoE_min ≤ c.SoE_max)
    (h1 : c.SoE_min ≤ SoE) (_h2 : SoE ≤ c.SoE_max) :
    c.SoE_min ≤ (update_SoE_ch c SoE p_GL_S p_GL delta_t).1 ∧
      (update_SoE_ch c SoE p_GL_S p_GL delta_t).1 ≤ c.SoE_max := by
  simp only [update_SoE_ch]
  have hen : 0 ≤ |p_GL_S * c.eta * delta_t| / c.Q := div_nonneg (abs_nonneg _) hQ
  split
  · exact ⟨hmm, le_refl _⟩
  · rename_i h
    push_neg at h
    exact ⟨le_add_of_le_of_nonneg h1 hen, h⟩

theorem update_SoE_dch_fst_mem (c : ESSConfig) (SoE p_GL_S delta_t : ℚ)
    (hQ : 0 ≤ c.Q) (hmm : c.SoE_min ≤ c.SoE_max)
    (_h1 : c.SoE_min ≤ SoE) (h2 : SoE ≤ c.SoE_max) :
    c.SoE_min ≤ (update_SoE_dch c SoE p_GL_S delta_t).1 ∧
      (update_SoE_dch c SoE p_GL_S delta_t).1 ≤ c.SoE_max := by
  simp only [update_SoE_dch]
  have hen : 0 ≤ |p_GL_S / c.eta * delta_t| / c.Q := div_nonneg (abs_nonneg _) hQ
  split
  · exact ⟨le_refl _, hmm⟩
  · rename_i h
    push_neg at h
    exact ⟨h, le_trans (by linarith) h2⟩

end ESS

namespace MG

theorem round2_zero : round2 (0 : ℚ) = 0 := by
  unfold round2
  norm_num

/-- Every dispatcher timestep is covered by one of the cases, and the
realized flows cancel exactly: `p_GL - p_GL_N - p_GL_S - ess_losses = 0`. -/
theorem dispatch_total_bal (c : MGConfig) (SoE p_G p_L alpha : ℚ) :
    ∃ d, dispatch c SoE p_G p_L alpha = some d ∧
      d.p_GL - d.p_GL_N - d.p_GL_S - d.ess_losses = 0 := by
  unfold dispatch
  simp only [ESS.update_SoE_ch_snd, ESS.update_SoE_dch_snd, gt_iff_lt,
    lt_self_iff_false, if_false, ne_eq, not_true_eq_false, not_false_eq_true,
    if_true]
  split
  · rename_i h
    exact ⟨_, rfl, by simp [h]⟩
  · split
    · split
      · exact ⟨_, rfl, by ring⟩
      · split
        · exact ⟨_, rfl, by ring⟩
        · split
          · exact ⟨_, rfl, by ring⟩
          · rename_i h1 h2 h3
            push_neg at h1 h2 h3
            rcases le_or_lt (round2 (p_G - p_L) * c.delta_t)
              (round2 (c.Q * (c.SoE_max - SoE))) with hA | hA
            · exact absurd (h1 hA) (not_lt_of_le (h3.2 hA))
            · exact absurd (h2 hA) (not_lt_of_le (h3.1 hA))
    · split
      · exact ⟨_, rfl, by ring⟩
      · split
        · exact ⟨_, rfl, by ring⟩
        · split
          · exact ⟨_, rfl, by ring⟩
          · split
            · exact ⟨_, rfl, by ring⟩
            · rename_i h1 h2 h3 h4
              push_neg at h1 h2 h3 h4
              rcases le_or_lt (alpha * |round2 (p_G - p_L) * c.delta_t| / c.eta)
                (round2 (c.Q * (SoE - c.SoE_min))) with hE | hE
              · exact absurd (h1 hE) (not_lt_of_le (h4 hE))
              · exact absurd (h2 hE) (not_lt_of_le (h3 hE))

/-- Any state produced by a dispatcher timestep stays inside
`[SoE_min, SoE_max]`, provided the incoming state was inside. -/
theorem dispatch_SoE_mem (c : MGConfig) (SoE p_G p_L alpha : ℚ)
    (hQ : 0 ≤ c.Q) (hmm : c.SoE_min ≤ c.SoE_max)
    (h1 : c.SoE_min ≤ SoE) (h2 : SoE ≤ c.SoE_max)
    (d : DispatchResult) (hd : dispatch c SoE p_G p_L alpha = some d) :
    c.SoE_min ≤ d.SoE ∧ d.SoE ≤ c.SoE_max := by
  simp only [dispatch, ESS.update_SoE_ch_snd, ESS.update_SoE_dch_snd, gt_iff_lt,
    lt_self_iff_false, if_false, ne_eq, not_true_eq_false, not_false_eq_true,
    if_true] at hd
  split at hd
  · cases hd
    exact ⟨h1, h2⟩
  · split at hd
    · split at hd
      · cases hd
        exact ESS.update_SoE_ch_fst_mem _ _ _ _ _ hQ hmm h1 h2
      · split at hd
        · cases hd
          exact ESS.update_SoE_ch_fst_mem _ _ _ _ _ hQ hmm h1 h2
        · split at hd
          · cases hd
            exact ESS.update_SoE_ch_fst_mem _ _ _ _ _ hQ hmm h1 h2
          · cases hd
    · split at hd
      · cases hd
        exact ESS.update_SoE_dch_fst_mem _ _ _ _ hQ hmm h1 h2
      · split at hd
        · cases hd
          exact ESS.update_SoE_dch_fst_mem _ _ _ _ hQ hmm h1 h2
        · split at hd
          · cases hd
            exact ESS.update_SoE_dch_fst_mem _ _ _ _ hQ hmm h1 h2
          · split at hd
            · cases hd
              exact ESS.update_SoE_dch_fst_mem _ _ _ _ hQ hmm h1 h2
            · cases hd

theorem check_SoE_false (c : MGConfig) (s : ℚ) (m M : ℤ)
    (hm : c.SoE_min = (m : ℚ) / 100) (hM : c.SoE_max = (M : ℚ) / 100)
    (h1 : c.SoE_min ≤ s) (h2 : s ≤ c.SoE_max) :
    check_SoE c s = false := by
  have l2 : round2 s ≤ c.SoE_max := by
    calc round2 s ≤ round2 c.SoE_max := round2_monotone h2
    _ = c.SoE_max := by rw [hM, round2_fix]
  have l1 : c.SoE_min ≤ round2 s := by
    calc c.SoE_min = round2 c.SoE_min := by rw [hm, round2_fix]
    _ ≤ round2 s := round2_monotone h1
  simp [check_SoE, not_lt_of_le l2, not_lt_of_le l1]

theorem check_e_bal_false {p_GL p_GL_N p_GL_S ess_losses : ℚ}
    (h : p_GL - p_GL_N - p_GL_S - ess_losses = 0) :
    check_e_bal p_GL p_GL_N p_GL_S ess_losses = false := by
  simp [check_e_bal, h, round2_zero]

/-- A dispatcher timestep never fails the energy-balance check, whatever the
inputs: if the step errors at all it does so at the SoE check. -/
theorem simulateStep_ne_balance (c : MGConfig) (SoE p_G p_L alpha : ℚ) :
    simulateStep c SoE p_G p_L alpha ≠ .error .balanceNonZero := by
  obtain ⟨d, hd, hbal⟩ := dispatch_total_bal c SoE p_G p_L alpha
  unfold simulateStep
  rw [hd]
  by_cases hs : check_SoE c d.SoE
  · simp [hs]
  · simp [hs, check_e_bal_false hbal]

/-- The full simulation loop never raises the energy-balance `ValueError`. -/
theorem simulate_ne_balance (c : MGConfig) (alpha : ℚ) (ds : List (ℚ × ℚ)) :
    ∀ SoE, simulate c alpha SoE ds ≠ .error .balanceNonZero := by
  induction ds with
  | nil => intro SoE; simp [simulate]
  | cons hd tl ih =>
    intro SoE
    obtain ⟨p_G, p_L⟩ := hd
    simp only [simulate]
    cases hstep : simulateStep c SoE p_G p_L alpha with
    | error e =>
      have hne := simulateStep_ne_balance c SoE p_G p_L alpha
      rw [hstep] at hne
      simpa using fun h => hne (by rw [h])
    | ok d => exact ih d.SoE

/-- Under in-bounds initial state and two-decimal `SoE` limits, a dispatcher
timestep succeeds and keeps `SoE` inside `[SoE_min, SoE_max]`. -/
theorem simulateStep_ok (c : MGConfig) (SoE p_G p_L alpha : ℚ)
    (hQ : 0 ≤ c.Q) (hmm : c.SoE_min ≤ c.SoE_max) (m M : ℤ)
    (hm : c.SoE_min = (m : ℚ) / 100) (hM : c.SoE_max = (M : ℚ) / 100)
    (h1 : c.SoE_min ≤ SoE) (h2 : SoE ≤ c.SoE_max) :
    ∃ d, simulateStep c SoE p_G p_L alpha = .ok d ∧
      c.SoE_min ≤ d.SoE ∧ d.SoE ≤ c.SoE_max := by
  obtain ⟨d, hd, hbal⟩ := dispatch_total_bal c SoE p_G p_L alpha
  obtain ⟨hb1, hb2⟩ := dispatch_SoE_mem c SoE p_G p_L alpha hQ hmm h1 h2 d hd
  refine ⟨d, ?_, hb1, hb2⟩
  unfold simulateStep
  rw [hd]
  simp [check_SoE_false c d.SoE m M hm hM hb1 hb2, check_e_bal_false hbal]

/-- Under the same conditions the whole loop succeeds, with every
intermediate and the final `SoE` in bounds. -/
theorem simulate_ok (c : MGConfig) (alpha : ℚ)
    (hQ : 0 ≤ c.Q) (hmm : c.SoE_min ≤ c.SoE_max) (m M : ℤ)
    (hm : c.SoE_min = (m : ℚ) / 100) (hM : c.SoE_max = (M : ℚ) / 100)
    (ds : List (ℚ × ℚ)) :
    ∀ SoE, c.SoE_min ≤ SoE → SoE ≤ c.SoE_max →
      ∃ r, simulate c alpha SoE ds = .ok r ∧ c.SoE_min ≤ r ∧ r ≤ c.SoE_max := by
  induction ds with
  | nil => intro SoE h1 h2; exact ⟨SoE, rfl, h1, h2⟩
  | cons hd tl ih =>
    intro SoE h1 h2
    obtain ⟨p_G, p_L⟩ := hd
    obtain ⟨d, hstep, hd1, hd2⟩ :=
      simulateStep_ok c SoE p_G p_L alpha hQ hmm m M hm hM h1 h2
    simp only [simulate, hstep]
    exact ih d.SoE hd1 hd2

end MG

/-! ## Claims C1 and C2 -/

/-- C1: for every dispatcher timestep (every dispatch case of `MG.simulate`:
equilibrium, overproduction, underproduction, with or without an excess/lack
adjustment), the realized flows satisfy
`p_GL - p_GL_N - p_GL_S - ess_losses = 0` (hence also when rounded to two
decimals), so the per-step energy-balance check never raises. -/
theorem claim_C1_energy_balance (c : MGConfig) (alpha SoE p_G p_L : ℚ)
    (ds : List (ℚ × ℚ)) :
    (∃ d, MG.dispatch c SoE p_G p_L alpha = some d ∧
        d.p_GL - d.p_GL_N - d.p_GL_S - d.ess_losses = 0 ∧
        MG.check_e_bal d.p_GL d.p_GL_N d.p_GL_S d.ess_losses = false) ∧
      MG.simulate c alpha SoE ds ≠ .error .balanceNonZero := by
  obtain ⟨d, hd, hbal⟩ := MG.dispatch_total_bal c SoE p_G p_L alpha
  exact ⟨⟨d, hd, hbal, MG.check_e_bal_false hbal⟩,
    MG.simulate_ne_balance c alpha ds SoE⟩

/-- C2: starting from an in-bounds state, after every dispatcher timestep the
battery `SoE` satisfies `SoE_min ≤ SoE ≤ SoE_max` (both exactly and after
two-decimal rounding, the two-decimal limits being representable), and
`check_SoE` raises exactly when the rounded bound is violated. -/
theorem claim_C2_SoE_bounds (c : MGConfig) (alpha : ℚ)
    (hQ : 0 ≤ c.Q) (hmm : c.SoE_min ≤ c.SoE_max) (m M : ℤ)
    (hm : c.SoE_min = (m : ℚ) / 100) (hM : c.SoE_max = (M : ℚ) / 100)
    (SoE : ℚ) (h1 : c.SoE_min ≤ SoE) (h2 : SoE ≤ c.SoE_max)
    (ds : List (ℚ × ℚ)) :
    (∀ p_G p_L, ∃ d, MG.simulateStep c SoE p_G p_L alpha = .ok d ∧
        c.SoE_min ≤ d.SoE ∧ d.SoE ≤ c.SoE_max ∧
        c.SoE_min ≤ round2 d.SoE ∧ round2 d.SoE ≤ c.SoE_max) ∧
      (∃ r, MG.simulate c alpha SoE ds = .ok r ∧
        c.SoE_min ≤ r ∧ r ≤ c.SoE_max) ∧
      (∀ s, MG.check_SoE c s = true ↔
        (round2 s > c.SoE_max ∨ round2 s < c.SoE_min)) := by
  refine ⟨?_, MG.simulate_ok c alpha hQ hmm m M hm hM ds SoE h1 h2, ?_⟩
  · intro p_G p_L
    obtain ⟨d, hstep, hd1, hd2⟩ :=
      MG.simulateStep_ok c SoE p_G p_L alpha hQ hmm m M hm hM h1 h2
    refine ⟨d, hstep, hd1, hd2, ?_, ?_⟩
    · calc c.SoE_min = round2 c.SoE_min := by rw [hm, round2_fix]
      _ ≤ round2 d.SoE := round2_monotone hd1
    · calc round2 d.SoE ≤ round2 c.SoE_max := round2_monotone hd2
      _ = c.SoE_max := by rw [hM, round2_fix]
  · intro s
    simp [MG.check_SoE, or_comm]

/-! ## Claims C3, C4, C7, C10 -/

/-- C3: every state-updating `transition` call persists
`soe_new = clip(soe - (i*Voc*Δt/1000)/nominal_energy_kwh,
min_capacity/max_capacity, 1)` and returns
`internal_energy_change = (soe_new - soe)*nominal_energy_kwh` clipped to
`[-max_discharge, max_charge]`. -/
theorem claim_C3_soe_and_energy (c : Unipi.Config) (st : Unipi.State)
    (e mi ma mc md eff bcc : ℚ) (k : ℕ) (sd : Unipi.StateDict) :
    (Unipi.transition c st e mi ma mc md eff bcc k sd true).2.soe
      = clip (Unipi.soeEff st sd k
          - (Unipi.currentA c st sd k e * (Unipi.vocR0 c st sd k).1
              * Unipi.deltaT c / 1000) / c.nominal_energy_kwh)
          (mi / ma) 1
    ∧ (Unipi.transition c st e mi ma mc md eff bcc k sd true).1
      = clip (((Unipi.transition c st e mi ma mc md eff bcc k sd true).2.soe
            - Unipi.soeEff st sd k) * c.nominal_energy_kwh)
          (-md) mc :=
  ⟨rfl, rfl⟩

/-- C4: after any state-updating `transition` call, the persisted `soc` lies
in `[min_soc, max_soc]` (the energy limits on an Ah basis) and the persisted
`soe` lies in `[min_capacity/max_capacity, 1]`, for any energy request and
any starting state, whenever the configured limits are consistent. -/
theorem claim_C4_bounds (c : Unipi.Config) (st : Unipi.State)
    (e mi ma mc md eff bcc : ℚ) (k : ℕ) (sd : Unipi.StateDict)
    (hD : 0 < Unipi.batteryPackNominalCharge c * (c.nominal_cell_voltage * c.ns_batt))
    (hma : 0 < ma) (hmi : mi ≤ ma) :
    (Unipi.minSoc c mi ≤ (Unipi.transition c st e mi ma mc md eff bcc k sd true).2.soc
      ∧ (Unipi.transition c st e mi ma mc md eff bcc k sd true).2.soc ≤ Unipi.maxSoc c ma)
    ∧ (mi / ma ≤ (Unipi.transition c st e mi ma mc md eff bcc k sd true).2.soe
      ∧ (Unipi.transition c st e mi ma mc md eff bcc k sd true).2.soe ≤ 1) := by
  have h1 : Unipi.minSoc c mi ≤ Unipi.maxSoc c ma := by
    unfold Unipi.minSoc Unipi.maxSoc
    exact div_le_div_of_nonneg_right (by nlinarith) (le_of_lt hD)
  have h2 : mi / ma ≤ 1 := div_le_one_of_le₀ hmi (le_of_lt hma)
  constructor
  · have hsoc : (Unipi.transition c st e mi ma mc md eff bcc k sd true).2.soc
        = clip (Unipi.socEff st sd k
            - (Unipi.currentA c st sd k e * Unipi.deltaT c) / (c.c_n * c.np_batt))
          (Unipi.minSoc c mi) (Unipi.maxSoc c ma) := rfl
    rw [hsoc]
    exact clip_mem h1
  · have hsoe : (Unipi.transition c st e mi ma mc md eff bcc k sd true).2.soe
        = clip (Unipi.soeEff st sd k
            - (Unipi.currentA c st sd k e * (Unipi.vocR0 c st sd k).1
                * Unipi.deltaT c / 1000) / c.nominal_energy_kwh)
          (mi / ma) 1 := rfl
    rw [hsoe]
    exact clip_mem h2

/-- C7: on a state produced by a previous `transition` call, the persisted
`v_prev` is exactly that call's terminal voltage `v_batt`; the current of any
later step `k ≠ 0` equals `1000*p/v_prev` with that persisted voltage (never
a fresh Voc lookup); and on step 0 the voltage in effect is the Voc
interpolated at the initial `soc`. -/
theorem claim_C7_voltage_lag (c : Unipi.Config) (st0 : Unipi.State)
    (e0 mi0 ma0 mc0 md0 eff0 bcc0 : ℚ) (k0 : ℕ) (sd0 : Unipi.StateDict)
    (st : Unipi.State)
    (hst : st = (Unipi.transition c st0 e0 mi0 ma0 mc0 md0 eff0 bcc0 k0 sd0 true).2) :
    st.v_prev = Unipi.vBatt c st0 sd0 k0 e0
    ∧ (∀ (e : ℚ) (k : ℕ) (sd : Unipi.StateDict), k ≠ 0 →
        Unipi.currentA c st sd k e = 1000 * (-e / Unipi.deltaT c) / st.v_prev)
    ∧ (∀ sd : Unipi.StateDict,
        Unipi.vprevEff c st sd 0 = (c.interp sd.soc (Unipi.effTemp c sd)).1) := by
  subst hst
  have hv : (Unipi.transition c st0 e0 mi0 ma0 mc0 md0 eff0 bcc0 k0 sd0 true).2.v_prev
      = Unipi.vBatt c st0 sd0 k0 e0 := rfl
  refine ⟨hv, ?_, fun sd => rfl⟩
  intro e k sd hk
  have hge : (1 : ℚ) / 1000000000
      ≤ (Unipi.transition c st0 e0 mi0 ma0 mc0 md0 eff0 bcc0 k0 sd0 true).2.v_prev := by
    rw [hv]
    exact le_trans (by norm_num) (le_max_right _ _)
  unfold Unipi.currentA Unipi.vprevEff
  rw [if_neg hk, max_eq_left hge, Unipi.powerKw]

/-- C10: `transition` with `state_update=False` is a pure preview: it leaves
every persisted field and the transition history unchanged, and returns the
negation of `transition_without_update` applied to the negated request. -/
theorem claim_C10_preview_pure (c : Unipi.Config) (st : Unipi.State)
    (e mi ma mc md eff bcc : ℚ) (k : ℕ) (sd : Unipi.StateDict) :
    Unipi.transition c st e mi ma mc md eff bcc k sd false
      = (-1 * Unipi.transition_without_update c st (-1 * e) mi ma mc md eff bcc k sd, st)
    ∧ (Unipi.transition c st e mi ma mc md eff bcc k sd false).2.soc = st.soc
    ∧ (Unipi.transition c st e mi ma mc md eff bcc k sd false).2.soe = st.soe
    ∧ (Unipi.transition c st e mi ma mc md eff bcc k sd false).2.v_prev = st.v_prev
    ∧ (Unipi.transition c st e mi ma mc md eff bcc k sd false).2.dyn_eta = st.dyn_eta
    ∧ (Unipi.transition c st e mi ma mc md eff bcc k sd false).2.last_dynamic_efficiency
        = st.last_dynamic_efficiency
    ∧ (Unipi.transition c st e mi ma mc md eff bcc k sd false).2.last_wear_cost
        = st.last_wear_cost
    ∧ (Unipi.transition c st e mi ma mc md eff bcc k sd false).2.history = st.history :=
  ⟨rfl, rfl, rfl, rfl, rfl, rfl, rfl, rfl⟩

/-! ## Claim C5: the excess/lack protocol

`ESS.update_SoE_ch` clamps `self.SoE` to `SoE_max` *before* computing
`excess = (self.SoE_max - self.SoE) * self.Q`, so the returned excess is
identically zero even when energy was not absorbed; symmetrically for
`update_SoE_dch` and `lack`. The dispatcher's `if excess > 0` /
`if lack != 0` adjustment branches are therefore unreachable. -/

/-- C5 (failing run): with `Q = 10, η = 1, SoE_max = 9/10`, charging
`p_GL_S = 2` for `Δt = 1` from `SoE = 4/5` would land at `SoE = 1`; the
model clamps to `9/10`, leaving `1 kWh` unabsorbed, yet returns
`excess = 0`, and in fact `excess`/`lack` are `0` on every call. -/
theorem claim_C5_excess_always_zero :
    ESS.update_SoE_ch ⟨10, 50, 1, 2, 1, 1, 1/2, 1/10, 9/10⟩ (4/5) 2 5 1 = (9/10, 0)
    ∧ ((4/5 : ℚ) + |(2 : ℚ) * 1 * 1| / 10) - 9/10 = 1/10
    ∧ (∀ (c : ESSConfig) (SoE p_GL_S p_GL delta_t : ℚ),
        (ESS.update_SoE_ch c SoE p_GL_S p_GL delta_t).2 = 0
        ∧ (ESS.update_SoE_dch c SoE p_GL_S delta_t).2 = 0) :=
  ⟨by norm_num [ESS.update_SoE_ch, Prod.ext_iff], by norm_num,
    fun c SoE p_GL_S p_GL delta_t =>
      ⟨ESS.update_SoE_ch_snd c SoE p_GL_S p_GL delta_t,
        ESS.update_SoE_dch_snd c SoE p_GL_S delta_t⟩⟩

/-- C8 (failing run): with `SoE_min = 1/5`, `SoE_max = 9/10` and an ECM
result of `1/2` — which is *not* below `SoE_min` — the empirical discharge
update clamps the state to `SoE_min = 1/5` and returns `lack = 0`, instead
of keeping the computed `1/2`; moreover `lack = 0` on every call, including
genuine shortfalls (ECM result `1/10 < SoE_min`). -/
theorem claim_C8_dch_guard_uses_SoE_max :
    ESSEmpirical.update_SoE_dch
        ⟨⟨10, 50, 1, 2, 1, 1, 1/2, 1/5, 9/10⟩, 4, 10, fun _ _ _ _ _ => 1/2⟩ (1/2) 2 1
      = (1/5, 0)
    ∧ ¬ ((1/2 : ℚ) < 1/5)
    ∧ ESSEmpirical.update_SoE_dch
        ⟨⟨10, 50, 1, 2, 1, 1, 1/2, 1/5, 9/10⟩, 4, 10, fun _ _ _ _ _ => 1/10⟩ (1/2) 2 1
      = (1/5, 0)
    ∧ (∀ (c : EmpConfig) (SoE p_GL_S delta_t : ℚ),
        (ESSEmpirical.update_SoE_dch c SoE p_GL_S delta_t).2 = 0) := by
  refine ⟨by norm_num [ESSEmpirical.update_SoE_dch, ESSEmpirical.get_req_quant, Prod.ext_iff],
    by norm_num,
    by norm_num [ESSEmpirical.update_SoE_dch, ESSEmpirical.get_req_quant, Prod.ext_iff], ?_⟩
  intro c SoE p_GL_S delta_t
  simp only [ESSEmpirical.update_SoE_dch]
  split
  · ring_nf
  · rfl

/-! ## Claim C9: `get_wear_cost` -/

/-- C9 (counterexample): a concrete step-0 `transition` from `soc = 1/2`
persists `soc = 3/4`, but `get_wear_cost` called afterwards with the
previous SoC `1/2` returns `1` — the trapezoid with *both* endpoints at the
previous SoC — not `3/4`, the value of the claimed trapezoid between the
previous SoC `1/2` and the post-step SoC `3/4`. -/
theorem claim_C9_counterexample :
    Unipi.get_wear_cost
        ⟨32/10, 1, 1, 1, 1000, 25, 1, 1, some 1, some 2, some 2, fun _ _ => (1, 0)⟩
        (Unipi.transition
          ⟨32/10, 1, 1, 1, 1000, 25, 1, 1, some 1, some 2, some 2, fun _ _ => (1, 0)⟩
          ⟨0, 0, 0, none, none, 0, []⟩ (1/4) 0 1 10 10 1 0 0 ⟨1/2, none, none⟩ true).2
        (1/2) 1 1 = 1
    ∧ (Unipi.transition
          ⟨32/10, 1, 1, 1, 1000, 25, 1, 1, some 1, some 2, some 2, fun _ _ => (1, 0)⟩
          ⟨0, 0, 0, none, none, 0, []⟩ (1/4) 0 1 10 10 1 0 0 ⟨1/2, none, none⟩ true).2.soc
        = 3/4
    ∧ ((1 : ℚ) / 2)
        * (Unipi.wearRate 1 1 1 2 2 (1/2) + Unipi.wearRate 1 1 1 2 2 (3/4)) * |(1 : ℚ)|
        = 3/4
    ∧ (1 : ℚ) ≠ 3/4 := by
  refine ⟨?_, ?_, ?_, by norm_num⟩
  · norm_num [Unipi.get_wear_cost, Unipi.computeWearCost, Unipi.wearRate, Unipi.wearEta,
      Unipi.transition, Unipi.socEff, Unipi.soeEff, Unipi.vocR0, Unipi.vprevEff,
      Unipi.effTemp, Unipi.currentA, Unipi.powerKw, Unipi.deltaT, Unipi.vBatt,
      Unipi.minSoc, Unipi.maxSoc, Unipi.batteryPackNominalCharge,
      Unipi.Config.nominal_energy_kwh, Unipi.dynamicEfficiency, clip, min_def, max_def]
  · norm_num [Unipi.transition, Unipi.socEff, Unipi.soeEff, Unipi.vocR0, Unipi.vprevEff,
      Unipi.effTemp, Unipi.currentA, Unipi.powerKw, Unipi.deltaT, Unipi.vBatt,
      Unipi.minSoc, Unipi.maxSoc, Unipi.batteryPackNominalCharge,
      Unipi.Config.nominal_energy_kwh, Unipi.dynamicEfficiency, clip, min_def, max_def]
  · norm_num [Unipi.wearRate]

/-- C9 (amended): `get_wear_cost` returns `0` when any wear coefficient is
unconfigured; otherwise it returns
`(Δt/2)·(W(soc_prev) + W(soc_prev))·|p| = Δt·W(soc_prev)·|p|` — it forwards
the supplied previous SoC as *both* trapezoid endpoints (the previous/current
two-point trapezoid is used only by `transition`'s internal call of
`_compute_wear_cost`). -/
theorem claim_C9_get_wear_cost (c : Unipi.Config) (st : Unipi.State)
    (soc_previous power_kw delta_t_hours : ℚ) :
    (c.wear_a = none ∨ c.wear_b = none ∨ c.wear_B = none →
      Unipi.get_wear_cost c st soc_previous power_kw delta_t_hours = 0)
    ∧ (∀ (a : ℚ) (b : ℤ) (B : ℚ),
        c.wear_a = some a → c.wear_b = some b → c.wear_B = some B →
        Unipi.get_wear_cost c st soc_previous power_kw delta_t_hours
          = ((delta_t_hours / 2)
              * (Unipi.wearRate c.nominal_energy_kwh
                  (Unipi.wearEta c st.dyn_eta st.last_dynamic_efficiency) a b B soc_previous
                + Unipi.wearRate c.nominal_energy_kwh
                  (Unipi.wearEta c st.dyn_eta st.last_dynamic_efficiency) a b B soc_previous))
            * |power_kw|) := by
  constructor
  · intro h
    rcases h with h | h | h <;>
      simp [Unipi.get_wear_cost, Unipi.computeWearCost, h]
  · intro a b B ha hb hB
    simp [Unipi.get_wear_cost, Unipi.computeWearCost, ha, hb, hB]

/-- Witness for the amended C9: with coefficients `a=1, b=2, B=2`,
unit nominal energy and unit efficiency, the wear cost of the previous SoC
`1/2` at power `1` over one hour is `1`; with `wear_a = None` it is `0`. -/
theorem claim_C9_get_wear_cost_witness :
    Unipi.get_wear_cost
        ⟨32/10, 1, 1, 1, 1000, 25, 1, 1, some 1, some 2, some 2, fun _ _ => (1, 0)⟩
        ⟨3/4, 3/4, 1, some 1, some 1, 0, []⟩ (1/2) 1 1 = 1
    ∧ Unipi.get_wear_cost
        ⟨32/10, 1, 1, 1, 1000, 25, 1, 1, none, some 2, some 2, fun _ _ => (1, 0)⟩
        ⟨3/4, 3/4, 1, some 1, some 1, 0, []⟩ (1/2) 1 1 = 0 :=
  ⟨((claim_C9_get_wear_cost _ _ (1/2) 1 1).2 1 2 2 rfl rfl rfl).trans
      (by norm_num [Unipi.wearRate, Unipi.wearEta, Unipi.Config.nominal_energy_kwh]),
    (claim_C9_get_wear_cost _ _ (1/2) 1 1).1 (Or.inl rfl)⟩

/-- Witness for C2 on a battery with `Q = 10, η = 1`,
`SoE ∈ [0.10, 0.90]`, starting at `SoE = 1/2`, dispatching `p_G = 10,
p_L = 2` with `α = 1`. -/
theorem claim_C2_SoE_bounds_witness :
    ((0 : ℚ) ≤ 10 ∧ (1/10 : ℚ) ≤ 9/10 ∧ (1/10 : ℚ) ≤ 1/2 ∧ (1/2 : ℚ) ≤ 9/10)
    ∧ (∃ d, MG.simulateStep ⟨⟨10, 50, 1, 2, 1, 1, 1/2, 1/10, 9/10⟩, 1⟩
          (1/2) 10 2 1 = .ok d
        ∧ (1/10 : ℚ) ≤ d.SoE ∧ d.SoE ≤ 9/10
        ∧ (1/10 : ℚ) ≤ round2 d.SoE ∧ round2 d.SoE ≤ 9/10)
    ∧ (∃ r, MG.simulate ⟨⟨10, 50, 1, 2, 1, 1, 1/2, 1/10, 9/10⟩, 1⟩
          1 (1/2) [(10, 2)] = .ok r ∧ (1/10 : ℚ) ≤ r ∧ r ≤ 9/10)
    ∧ (MG.check_SoE ⟨⟨10, 50, 1, 2, 1, 1, 1/2, 1/10, 9/10⟩, 1⟩ 1 = true
        ↔ (round2 (1 : ℚ) > 9/10 ∨ round2 (1 : ℚ) < 1/10)) := by
  have h := claim_C2_SoE_bounds ⟨⟨10, 50, 1, 2, 1, 1, 1/2, 1/10, 9/10⟩, 1⟩ 1
    (by norm_num) (by norm_num) 10 90 (by norm_num) (by norm_num)
    (1/2) (by norm_num) (by norm_num) [(10, 2)]
  exact ⟨⟨by norm_num, by norm_num, by norm_num, by norm_num⟩,
    h.1 10 2, h.2.1, h.2.2 1⟩

/-- Witness for C4: a concrete step-0 charge with
`min_capacity = 0, max_capacity = 1` lands both `soc` and `soe` inside
their configured bounds. -/
theorem claim_C4_bounds_witness :
    ((0 : ℚ) < Unipi.batteryPackNominalCharge
        ⟨32/10, 1, 1, 1, 1000, 25, 1, 1, some 1, some 2, some 2, fun _ _ => (1, 0)⟩
        * (1 * 1) ∧ (0 : ℚ) < 1 ∧ (0 : ℚ) ≤ 1)
    ∧ ((Unipi.minSoc ⟨32/10, 1, 1, 1, 1000, 25, 1, 1, some 1, some 2, some 2, fun _ _ => (1, 0)⟩ 0
        ≤ (Unipi.transition
            ⟨32/10, 1, 1, 1, 1000, 25, 1, 1, some 1, some 2, some 2, fun _ _ => (1, 0)⟩
            ⟨0, 0, 0, none, none, 0, []⟩ (1/4) 0 1 10 10 1 0 0 ⟨1/2, none, none⟩ true).2.soc
      ∧ (Unipi.transition
            ⟨32/10, 1, 1, 1, 1000, 25, 1, 1, some 1, some 2, some 2, fun _ _ => (1, 0)⟩
            ⟨0, 0, 0, none, none, 0, []⟩ (1/4) 0 1 10 10 1 0 0 ⟨1/2, none, none⟩ true).2.soc
        ≤ Unipi.maxSoc ⟨32/10, 1, 1, 1, 1000, 25, 1, 1, some 1, some 2, some 2, fun _ _ => (1, 0)⟩ 1)
    ∧ ((0 : ℚ) / 1
        ≤ (Unipi.transition
            ⟨32/10, 1, 1, 1, 1000, 25, 1, 1, some 1, some 2, some 2, fun _ _ => (1, 0)⟩
            ⟨0, 0, 0, none, none, 0, []⟩ (1/4) 0 1 10 10 1 0 0 ⟨1/2, none, none⟩ true).2.soe
      ∧ (Unipi.transition
            ⟨32/10, 1, 1, 1, 1000, 25, 1, 1, some 1, some 2, some 2, fun _ _ => (1, 0)⟩
            ⟨0, 0, 0, none, none, 0, []⟩ (1/4) 0 1 10 10 1 0 0 ⟨1/2, none, none⟩ true).2.soe
        ≤ 1)) :=
  ⟨⟨by norm_num [Unipi.batteryPackNominalCharge], by norm_num, by norm_num⟩,
    claim_C4_bounds _ _ (1/4) 0 1 10 10 1 0 0 ⟨1/2, none, none⟩
      (by norm_num [Unipi.batteryPackNominalCharge]) (by norm_num) (by norm_num)⟩

/-- Witness for C7: after a concrete step-1 call, the persisted voltage is
that call's `v_batt`, and the next step's current divides by exactly that
persisted voltage. -/
theorem claim_C7_voltage_lag_witness :
    (Unipi.transition ⟨32/10, 1, 1, 1, 1000, 25, 1, 1, none, none, none, fun _ _ => (4, 0)⟩
        ⟨1/2, 1/2, 4, none, none, 0, []⟩ 1 0 1 10 10 1 0 1 ⟨1/2, none, none⟩ true).2.v_prev
      = Unipi.vBatt ⟨32/10, 1, 1, 1, 1000, 25, 1, 1, none, none, none, fun _ _ => (4, 0)⟩
        ⟨1/2, 1/2, 4, none, none, 0, []⟩ ⟨1/2, none, none⟩ 1 1
    ∧ Unipi.currentA ⟨32/10, 1, 1, 1, 1000, 25, 1, 1, none, none, none, fun _ _ => (4, 0)⟩
        (Unipi.transition ⟨32/10, 1, 1, 1, 1000, 25, 1, 1, none, none, none, fun _ _ => (4, 0)⟩
          ⟨1/2, 1/2, 4, none, none, 0, []⟩ 1 0 1 10 10 1 0 1 ⟨1/2, none, none⟩ true).2
        ⟨1/2, none, none⟩ 2 2
      = 1000 * (-2 / Unipi.deltaT ⟨32/10, 1, 1, 1, 1000, 25, 1, 1, none, none, none, fun _ _ => (4, 0)⟩)
        / (Unipi.transition ⟨32/10, 1, 1, 1, 1000, 25, 1, 1, none, none, none, fun _ _ => (4, 0)⟩
            ⟨1/2, 1/2, 4, none, none, 0, []⟩ 1 0 1 10 10 1 0 1 ⟨1/2, none, none⟩ true).2.v_prev
    ∧ Unipi.vprevEff ⟨32/10, 1, 1, 1, 1000, 25, 1, 1, none, none, none, fun _ _ => (4, 0)⟩
        (Unipi.transition ⟨32/10, 1, 1, 1, 1000, 25, 1, 1, none, none, none, fun _ _ => (4, 0)⟩
          ⟨1/2, 1/2, 4, none, none, 0, []⟩ 1 0 1 10 10 1 0 1 ⟨1/2, none, none⟩ true).2
        ⟨1/2, none, none⟩ 0
      = ((fun (_ _ : ℚ) => ((4 : ℚ), (0 : ℚ))) (1/2 : ℚ) (Unipi.effTemp
          ⟨32/10, 1, 1, 1, 1000, 25, 1, 1, none, none, none, fun _ _ => (4, 0)⟩
          ⟨1/2, none, none⟩)).1 := by
  have h := claim_C7_voltage_lag
    ⟨32/10, 1, 1, 1, 1000, 25, 1, 1, none, none, none, fun _ _ => (4, 0)⟩
    ⟨1/2, 1/2, 4, none, none, 0, []⟩ 1 0 1 10 10 1 0 1 ⟨1/2, none, none⟩ _ rfl
  exact ⟨h.1, h.2.1 2 2 ⟨1/2, none, none⟩ (by norm_num), h.2.2 ⟨1/2, none, none⟩⟩

theorem sohInterp_le (p q : ℚ × ℚ) (ah : ℚ) (hlt : p.1 < q.1) (hle : q.2 ≤ p.2)
    (hah : p.1 ≤ ah) : sohInterp p q ah ≤ p.2 := by
  unfold sohInterp
  have hd : (0 : ℚ) < q.1 - p.1 := by linarith
  have hnum : (q.2 - p.2) * (ah - p.1) ≤ 0 :=
    mul_nonpos_of_nonpos_of_nonneg (by linarith) (by linarith)
  have := div_nonpos_iff.mpr (Or.inr ⟨hnum, hd.le⟩)
  linarith

theorem sohInterp_ge (p q : ℚ × ℚ) (ah : ℚ) (hlt : p.1 < q.1) (hle : q.2 ≤ p.2)
    (_h1 : p.1 ≤ ah) (h2 : ah ≤ q.1) : q.2 ≤ sohInterp p q ah := by
  unfold sohInterp
  have hd : (0 : ℚ) < q.1 - p.1 := by linarith
  have key : (q.2 - p.2) * (q.1 - p.1) ≤ (q.2 - p.2) * (ah - p.1) :=
    mul_le_mul_of_nonpos_left (by linarith) (by linarith)
  have hdiv := div_le_div_of_nonneg_right key hd.le
  rw [mul_div_cancel_right₀ _ (ne_of_gt hd)] at hdiv
  linarith

theorem sohCurveFrom_le_start (pts : List (ℚ × ℚ)) :
    ∀ (p : ℚ × ℚ) (ah : ℚ), sohChain p pts → p.1 ≤ ah →
      sohCurveFrom p pts ah ≤ p.2 := by
  induction pts with
  | nil => intro p ah _ _; exact le_refl _
  | cons q rest ih =>
    intro p ah hch hah
    obtain ⟨hlt, hle, hch'⟩ := hch
    simp only [sohCurveFrom]
    split
    · exact sohInterp_le p q ah hlt hle hah
    · rename_i hq
      push_neg at hq
      exact le_trans (ih q ah hch' hq.le) hle

theorem sohCurveFrom_anti (pts : List (ℚ × ℚ)) :
    ∀ (p : ℚ × ℚ) (ah1 ah2 : ℚ), sohChain p pts → p.1 ≤ ah1 → ah1 ≤ ah2 →
      sohCurveFrom p pts ah2 ≤ sohCurveFrom p pts ah1 := by
  induction pts with
  | nil => intro p ah1 ah2 _ _ _; exact le_refl _
  | cons q rest ih =>
    intro p ah1 ah2 hch h1 h12
    obtain ⟨hlt, hle, hch'⟩ := hch
    simp only [sohCurveFrom]
    by_cases h2 : ah2 ≤ q.1
    · rw [if_pos h2, if_pos (le_trans h12 h2)]
      unfold sohInterp
      have hd : (0 : ℚ) < q.1 - p.1 := by linarith
      have key : (q.2 - p.2) * (ah2 - p.1) ≤ (q.2 - p.2) * (ah1 - p.1) :=
        mul_le_mul_of_nonpos_left (by linarith) (by linarith)
      have hdiv := div_le_div_of_nonneg_right key hd.le
      linarith
    · push_neg at h2
      rw [if_neg (not_le_of_lt h2)]
      by_cases h1q : ah1 ≤ q.1
      · rw [if_pos h1q]
        calc sohCurveFrom q rest ah2 ≤ q.2 :=
              sohCurveFrom_le_start rest q ah2 hch' h2.le
        _ ≤ sohInterp p q ah1 := sohInterp_ge p q ah1 hlt hle h1 h1q
      · push_neg at h1q
        rw [if_neg (not_le_of_lt h1q)]
        exact ih q ah1 ah2 hch' h1q.le h12

/-- C6: for well-formed measured points, the SOH curve never increases with
throughput (`soh(ah2) ≤ soh(ah1)` for `ah2 ≥ ah1 ≥ 0`), `soh(0) = 1`, and
the per-step update returns `min(curve_value, last_soh)`, hence never
exceeds the last reported SOH even for out-of-order or revisited
throughputs. -/
theorem claim_C6_soh_monotone (pts : List (ℚ × ℚ)) (h : sohChain (0, 1) pts) :
    (∀ ah1 ah2 : ℚ, 0 ≤ ah1 → ah1 ≤ ah2 → sohCurve pts ah2 ≤ sohCurve pts ah1)
    ∧ sohCurve pts 0 = 1
    ∧ (∀ last_soh ah : ℚ,
        updateSoh pts last_soh ah = min (sohCurve pts ah) last_soh
        ∧ updateSoh pts last_soh ah ≤ last_soh) := by
  refine ⟨fun ah1 ah2 h1 h12 => sohCurveFrom_anti pts (0, 1) ah1 ah2 h h1 h12,
    ?_, fun l ah => ⟨rfl, min_le_right _ _⟩⟩
  cases pts with
  | nil => rfl
  | cons q rest =>
    obtain ⟨hlt, _, _⟩ := h
    simp only [sohCurve, sohCurveFrom]
    rw [if_pos (le_of_lt hlt)]
    unfold sohInterp
    norm_num

/-- Witness for C6 on the first two NMC measurement points
`(29.3 Ah, 0.955)` and `(57.5 Ah, 0.93)`: the chain condition holds, the
curve matches the first threshold, and an update below the last SOH caps at
the curve value. -/
theorem claim_C6_soh_monotone_witness :
    sohChain (0, 1) [(293/10, 191/200), (115/2, 93/100)]
    ∧ sohCurve [(293/10, 191/200), (115/2, 93/100)] 0 = 1
    ∧ sohCurve [(293/10, 191/200), (115/2, 93/100)] (293/10) = 191/200
    ∧ updateSoh [(293/10, 191/200), (115/2, 93/100)] (9/10) (293/10) = 9/10 := by
  have hch : sohChain (0, 1) [(293/10, 191/200), (115/2, 93/100)] := by
    norm_num [sohChain]
  refine ⟨hch, (claim_C6_soh_monotone _ hch).2.1, ?_, ?_⟩
  · norm_num [sohCurve, sohCurveFrom, sohInterp]
  · norm_num [updateSoh, sohCurve, sohCurveFrom, sohInterp, min_def]

end MGSim
